import Mathlib

/-!
Shallow embedding of the blockchain engine of the cryptocurrency
repository (crates/blockchain: block.rs, transaction.rs, blockchain.rs,
preparing_block_state.rs, consts.rs, helpers.rs).

Modelling conventions:
* u64 values are Nat; where the source performs unchecked additions the
  result is reduced modulo 2 ^ 64 (release-mode wrapping semantics);
  checked_add / checked_sub are modelled explicitly.
* SHA-256 hashing and ECDSA signing/verification are abstracted into an
  environment of functions. A body hash is the environment hash applied
  to the signature-erased record, mirroring the fact that compute_hash
  excludes the signature field.
* The sqlite store is the list of blocks in insertion (id) order.
* created_at (an f64 Unix timestamp) is modelled as Rat; the claims
  settled here do not depend on floating-point rounding.
* The process-wide atomics IS_MINING and DB_IO_LOCKED are carried as
  explicit boolean state.
-/

namespace Coin

/-- Decidable equality on Except, for evaluating validators on
concrete inputs. -/
instance {ε α} [DecidableEq ε] [DecidableEq α] :
    DecidableEq (Except ε α) := fun x y => by
  cases x with
  | ok a =>
    cases y with
    | ok b =>
      exact if h : a = b then isTrue (h ▸ rfl)
        else isFalse (fun hc => h (Except.ok.inj hc))
    | error _ => exact isFalse (fun hc => Except.noConfusion hc)
  | error a =>
    cases y with
    | ok _ => exact isFalse (fun hc => Except.noConfusion hc)
    | error b =>
      exact if h : a = b then isTrue (h ▸ rfl)
        else isFalse (fun hc => h (Except.error.inj hc))

/-- Reserved treasury address (consts::STORAGE_ADDRESS). -/
def STORAGE_ADDRESS : String := "STORAGE"

/-- Number of user transactions per block (consts). -/
def USER_TRANSACTIONS_PER_BLOCK : Nat := 2

/-- Total transactions per block: user transactions plus one reward. -/
def TRANSACTIONS_PER_BLOCK : Nat := USER_TRANSACTIONS_PER_BLOCK + 1

/-- Initial miner balance in the genesis block (consts). -/
def GENESIS_BLOCK_REWARD : Nat := 100

/-- Initial storage balance in the genesis block (consts). -/
def STORAGE_START_BALANCE : Nat := 100

/-- Reward of a mined block (consts::MINING_REWARD). -/
def MINING_REWARD : Nat := 1

/-- Storage tax per sufficiently large transaction (consts). -/
def STORAGE_REWARD : Nat := 1

/-- Amount threshold from which the storage tax applies (consts). -/
def STORAGE_REWARD_STARTING_FROM : Nat := 10

/-- Number of leading zero hex characters required of a block hash. -/
def PROOF_OF_WORK_DIFFICULTY : Nat := 4

/-- Modulus of 64-bit machine arithmetic. -/
def U64_MOD : Nat := 2 ^ 64

/-- The hex-zero target as characters: "0".repeat(difficulty). -/
def powZeros : List Char := List.replicate PROOF_OF_WORK_DIFFICULTY '0'

/-- Rust str::starts_with on the zero target, on the character level. -/
def strStartsWithZeros (s : String) : Bool :=
  powZeros.isPrefixOf s.data

/-- Checked 64-bit addition (u64::checked_add). -/
def checkedAdd (a b : Nat) : Option Nat :=
  if a + b < U64_MOD then some (a + b) else none

/-- Checked 64-bit subtraction (u64::checked_sub). -/
def checkedSub (a b : Nat) : Option Nat :=
  if b ≤ a then some (a - b) else none

/-- Lookup in a balance state (BTreeMap::get), as an association list. -/
def bsGet (m : List (String × Nat)) (k : String) : Option Nat :=
  match m with
  | [] => none
  | (k₁, v) :: rest => if k = k₁ then some v else bsGet rest k

/-- Insert into a balance state (BTreeMap::insert), replacing the key. -/
def bsInsert (m : List (String × Nat)) (k : String) (v : Nat) :
    List (String × Nat) :=
  match m with
  | [] => [(k, v)]
  | (k₁, v₁) :: rest =>
    if k = k₁ then (k, v) :: rest else (k₁, v₁) :: bsInsert rest k v

/-- Transaction record (transaction.rs). amount is a NonZeroU64 in the
source; positivity is taken as a hypothesis where a claim needs it. -/
structure Transaction where
  sender : String
  recipient : String
  amount : Nat
  amount_to_storage : Nat
  previous_block_hash : String
  random_string : String
  sender_signature : Option String
deriving Repr, DecidableEq

/-- Block record (block.rs). -/
structure Block where
  miner : String
  previous_hash : Option String
  transactions : List Transaction
  balance_state : List (String × Nat)
  nonce : Nat
  created_at : Rat
  miner_signature : Option String
deriving Repr, DecidableEq

/-- Abstracted cryptography and clock: hash functions over the
signature-erased records, signature verification (signature, hashed
data, claimed address), signing by the node key, and the current
Unix timestamp. -/
structure Env where
  hashBlock : Block → String
  hashTx : Transaction → String
  verify : String → String → String → Bool
  sign : String → String
  now : Rat

/-- Body hash of a transaction: excludes sender_signature. -/
def Transaction.compute_hash (env : Env) (t : Transaction) : String :=
  env.hashTx { t with sender_signature := none }

/-- Body hash of a block: excludes miner_signature. -/
def Block.compute_hash (env : Env) (b : Block) : String :=
  env.hashBlock { b with miner_signature := none }

/-- Errors of Transaction::validate_integrity, flattened. The
verification sub-errors (parse / recover / verify / address mismatch)
are collapsed into verifyFailed. -/
inductive TxErr where
  | recipientIsStorage
  | signatureEmpty
  | verifyFailed
  | hashesNotEquals
  | getLastHashFailed
deriving Repr, DecidableEq

/-- Last block body hash from the store
(Blockchain::get_last_block_hash); the db query fails on an empty
store. -/
def get_last_block_hash (env : Env) (chain : List Block) :
    Except Unit String :=
  match chain.getLast? with
  | some b => Except.ok (b.compute_hash env)
  | none => Except.error ()

/-- Transaction::validate_recipient. -/
def Transaction.validate_recipient (t : Transaction) :
    Except TxErr Unit :=
  if t.recipient = STORAGE_ADDRESS then Except.error TxErr.recipientIsStorage
  else Except.ok ()

/-- Transaction::validate_sender_signature: storage-sent transactions
skip the check; otherwise the signature must be present and verify
against the sender. -/
def Transaction.validate_sender_signature (env : Env) (t : Transaction) :
    Except TxErr Unit :=
  if t.sender ≠ STORAGE_ADDRESS then
    match t.sender_signature with
    | some s =>
      if env.verify s (t.compute_hash env) t.sender then Except.ok ()
      else Except.error TxErr.verifyFailed
    | none => Except.error TxErr.signatureEmpty
  else Except.ok ()

/-- Transaction::validate_previous_block_hash. -/
def Transaction.validate_previous_block_hash (env : Env)
    (chain : List Block) (t : Transaction) : Except TxErr Unit :=
  match get_last_block_hash env chain with
  | Except.error _ => Except.error TxErr.getLastHashFailed
  | Except.ok h =>
    if t.previous_block_hash ≠ h then Except.error TxErr.hashesNotEquals
    else Except.ok ()

/-- Transaction::validate_integrity: recipient, then sender signature,
then previous block hash. -/
def Transaction.validate_integrity (env : Env) (chain : List Block)
    (t : Transaction) : Except TxErr Unit :=
  match t.validate_recipient with
  | Except.error e => Except.error e
  | Except.ok _ =>
    match t.validate_sender_signature env with
    | Except.error e => Except.error e
    | Except.ok _ => t.validate_previous_block_hash env chain

/-- Errors of the balance-state check
(ValidateBlockBalanceStateError). -/
inductive BalErr where
  | addOverflow
  | balancesNotEquals
  | noBalanceInState
  | subOverflow
deriving Repr, DecidableEq

/-- Errors of Block::validate_integrity, flattened across the
sub-validators. missingSignature stands for the unwrap panic of
validate_miner_signature on an unsigned block (unreachable from
validate_integrity, which checks is_signed first). -/
inductive BlockErr where
  | prevHashesNotEquals
  | getLastHashFailed
  | powInvalid
  | notSigned
  | missingSignature
  | minerSignatureInvalid
  | invalidUserCount
  | invalidStorageCount
  | randomStringNotUnique
  | txIntegrity (e : TxErr)
  | rewardedNotMiner
  | invalidReward
  | txPreviousHashesNotEquals
  | senderBalance (e : BalErr)
  | recipientBalance (e : BalErr)
  | inFuture
  | previousInFuture
  | noPreviousBlockFound
deriving Repr, DecidableEq

/-- Blocks returned by Blockchain::get_blocks with a before bound:
rows are scanned in id order; each block is pushed, and the scan stops
right after pushing the block whose body hash equals the previous_hash
of the bound. -/
def get_blocks_before (env : Env) (bb : Block) :
    List Block → List Block
  | [] => []
  | b :: rest =>
    if bb.previous_hash = some (b.compute_hash env) then [b]
    else b :: get_blocks_before env bb rest

/-- Blockchain::get_blocks. -/
def get_blocks (env : Env) (chain : List Block) (before : Option Block) :
    List Block :=
  match before with
  | none => chain
  | some bb => get_blocks_before env bb chain

/-- Blockchain::get_balance_from_database: reverse the retrieved
blocks and return the first balance_state entry for the address, or 0
when none holds one. -/
def get_balance_from_database (env : Env) (chain : List Block)
    (address : String) (before : Option Block) : Nat :=
  ((get_blocks env chain before).reverse.findSome?
    (fun b => bsGet b.balance_state address)).getD 0

/-- Accumulation loop of Block::validate_balance_state: one pass over
the transactions building (spent, received), with the exclusive
if / else-if classification of the source and u64 wrapping on the
unchecked additions. -/
def spentReceivedLoop (address : String) (txs : List Transaction)
    (acc : Nat × Nat) : Nat × Nat :=
  match txs with
  | [] => acc
  | t :: rest =>
    spentReceivedLoop address rest
      (if address = t.sender then
        ((acc.1 + (t.amount + t.amount_to_storage) % U64_MOD) % U64_MOD,
          acc.2)
      else if address = t.recipient then
        (acc.1, (acc.2 + t.amount) % U64_MOD)
      else if address = STORAGE_ADDRESS then
        (acc.1, (acc.2 + t.amount_to_storage) % U64_MOD)
      else acc)

/-- Block::validate_balance_state for one address: compare the stored
balance_state entry with pre-block balance + received − spent, using
checked u64 arithmetic. -/
def Block.validate_balance_state (env : Env) (chain : List Block)
    (b : Block) (address : String) : Except BalErr Unit :=
  match bsGet b.balance_state address with
  | none => Except.error BalErr.noBalanceInState
  | some state_balance =>
    let balance := get_balance_from_database env chain address (some b)
    let sr := spentReceivedLoop address b.transactions (0, 0)
    match checkedAdd balance sr.2 with
    | none => Except.error BalErr.addOverflow
    | some b₁ =>
      match checkedSub b₁ sr.1 with
      | none => Except.error BalErr.subOverflow
      | some b₂ =>
        if b₂ = state_balance then Except.ok ()
        else Except.error BalErr.balancesNotEquals

/-- Block::validate_previous_hash: errors only when a previous_hash is
carried and differs from the body hash of the last stored block. -/
def Block.validate_previous_hash (env : Env) (chain : List Block)
    (b : Block) : Except BlockErr Unit :=
  match get_last_block_hash env chain with
  | Except.error _ => Except.error BlockErr.getLastHashFailed
  | Except.ok ph =>
    if (match b.previous_hash with
        | some h => decide (h ≠ ph)
        | none => false) then
      Except.error BlockErr.prevHashesNotEquals
    else Except.ok ()

/-- Proof-of-work predicate: the body hash starts with the zero
target. -/
def Block.pow_valid (env : Env) (b : Block) : Bool :=
  strStartsWithZeros (b.compute_hash env)

/-- Block::validate_proof_of_work. -/
def Block.validate_proof_of_work (env : Env) (b : Block) :
    Except BlockErr Unit :=
  if b.pow_valid env then Except.ok ()
  else Except.error BlockErr.powInvalid

/-- Block::validate_is_signed. -/
def Block.validate_is_signed (b : Block) : Except BlockErr Unit :=
  if b.miner_signature = none then Except.error BlockErr.notSigned
  else Except.ok ()

/-- Block::validate_miner_signature; the source unwraps the signature
and panics on an unsigned block, modelled as missingSignature. -/
def Block.validate_miner_signature (env : Env) (b : Block) :
    Except BlockErr Unit :=
  match b.miner_signature with
  | none => Except.error BlockErr.missingSignature
  | some s =>
    if env.verify s (b.compute_hash env) b.miner then Except.ok ()
    else Except.error BlockErr.minerSignatureInvalid

/-- Blockchain::get_block_before_block: first stored block whose body
hash equals the previous_hash of the argument. -/
def get_block_before_block (env : Env) (chain : List Block) (b : Block) :
    Option Block :=
  chain.find? (fun blk => b.previous_hash = some (blk.compute_hash env))

/-- Block::validate_created_at; the unwrap of the previous block is
modelled as noPreviousBlockFound. -/
def Block.validate_created_at (env : Env) (chain : List Block)
    (b : Block) : Except BlockErr Unit :=
  if env.now - b.created_at < 0 then Except.error BlockErr.inFuture
  else
    match get_block_before_block env chain b with
    | none => Except.error BlockErr.noPreviousBlockFound
    | some prev =>
      if b.created_at - prev.created_at ≤ 0 then
        Except.error BlockErr.previousInFuture
      else Except.ok ()

/-- Pairwise distinctness of random_string, in the double-loop order
of the source. -/
def randomStringsDistinct : List Transaction → Bool
  | [] => true
  | t :: rest =>
    rest.all (fun u => t.random_string ≠ u.random_string) &&
      randomStringsDistinct rest

/-- Per-transaction body of the loop in Block::validate_transactions:
transaction integrity, reward checks for the storage sender, the
block-level previous-hash comparison, and the balance-state checks for
both endpoints. -/
def Block.validateTxStep (env : Env) (chain : List Block) (b : Block)
    (t : Transaction) : Except BlockErr Unit :=
  match Transaction.validate_integrity env chain t with
  | Except.error e => Except.error (BlockErr.txIntegrity e)
  | Except.ok _ =>
    let tail : Except BlockErr Unit :=
      if ¬ (b.previous_hash = some t.previous_block_hash) then
        Except.error BlockErr.txPreviousHashesNotEquals
      else
        match b.validate_balance_state env chain t.sender with
        | Except.error e => Except.error (BlockErr.senderBalance e)
        | Except.ok _ =>
          match b.validate_balance_state env chain t.recipient with
          | Except.error e => Except.error (BlockErr.recipientBalance e)
          | Except.ok _ => Except.ok ()
    if t.sender = STORAGE_ADDRESS then
      if t.recipient ≠ b.miner then Except.error BlockErr.rewardedNotMiner
      else if t.amount ≠ MINING_REWARD then
        Except.error BlockErr.invalidReward
      else tail
    else tail

/-- Sequencing of validateTxStep over the transactions of the block. -/
def Block.validateTxList (env : Env) (chain : List Block) (b : Block) :
    List Transaction → Except BlockErr Unit
  | [] => Except.ok ()
  | t :: rest =>
    match b.validateTxStep env chain t with
    | Except.error e => Except.error e
    | Except.ok _ => b.validateTxList env chain rest

/-- Block::validate_transactions. -/
def Block.validate_transactions (env : Env) (chain : List Block)
    (b : Block) : Except BlockErr Unit :=
  if b.transactions.length ≠ USER_TRANSACTIONS_PER_BLOCK + 1 then
    Except.error BlockErr.invalidUserCount
  else if (b.transactions.filter
      (fun t => t.sender = STORAGE_ADDRESS)).length ≠ 1 then
    Except.error BlockErr.invalidStorageCount
  else if ¬ randomStringsDistinct b.transactions then
    Except.error BlockErr.randomStringNotUnique
  else b.validateTxList env chain b.transactions

/-- Block::validate_integrity: the six checks in source order. -/
def Block.validate_integrity (env : Env) (chain : List Block)
    (b : Block) : Except BlockErr Unit :=
  match b.validate_previous_hash env chain with
  | Except.error e => Except.error e
  | Except.ok _ =>
    match b.validate_proof_of_work env with
    | Except.error e => Except.error e
    | Except.ok _ =>
      match b.validate_is_signed with
      | Except.error e => Except.error e
      | Except.ok _ =>
        match b.validate_miner_signature env with
        | Except.error e => Except.error e
        | Except.ok _ =>
          match b.validate_transactions env chain with
          | Except.error e => Except.error e
          | Except.ok _ => b.validate_created_at env chain

/-- PreparingBlockState (preparing_block_state.rs). -/
structure PreparingBlockState where
  transactions : List Transaction
  balance_state : List (String × Nat)
deriving Repr, DecidableEq

/-- PreparingBlockState::new / the state after clear. -/
def PreparingBlockState.empty : PreparingBlockState := ⟨[], []⟩

/-- Engine state: the preparing-block accumulator, the stored chain in
id order, and the process-wide IS_MINING flag. -/
structure St where
  preparing : PreparingBlockState
  chain : List Block
  isMining : Bool
deriving Repr, DecidableEq

/-- Errors of Blockchain::add_transaction, flattened. -/
inductive AddTxErr where
  | limitReached
  | integrity (e : TxErr)
  | notEnoughMoney
deriving Repr, DecidableEq

/-- Blockchain::get_balance: the preparing-state entry when present,
otherwise the database balance with no bound. -/
def get_balance (env : Env) (st : St) (address : String) : Nat :=
  match bsGet st.preparing.balance_state address with
  | some b => b
  | none => get_balance_from_database env st.chain address none

/-- Blockchain::add_to_balance; the unchecked u64 addition wraps. -/
def add_to_balance (env : Env) (st : St) (address : String)
    (amount : Nat) : St :=
  { st with preparing :=
    { st.preparing with balance_state :=
      (bsInsert st.preparing.balance_state address
        ((get_balance env st address + amount) % U64_MOD)) } }

/-- Blockchain::remove_from_balance: NotEnoughMoney when the amount
exceeds the balance. -/
def remove_from_balance (env : Env) (st : St) (address : String)
    (amount : Nat) : Except Unit St :=
  let balance := get_balance env st address
  if amount > balance then Except.error ()
  else
    Except.ok { st with preparing :=
      { st.preparing with balance_state :=
        (bsInsert st.preparing.balance_state address (balance - amount)) } }

/-- Blockchain::add_transaction: the limit check compares the length
of the whole pending-transaction list with USER_TRANSACTIONS_PER_BLOCK
for non-storage senders; then transaction integrity; then the sender
debit of (amount + amount_to_storage), the recipient credit, the
storage credit when the tax is nonzero, and the push. -/
def add_transaction (env : Env) (st : St) (t : Transaction) :
    Except AddTxErr St :=
  if t.sender ≠ STORAGE_ADDRESS ∧
      st.preparing.transactions.length = USER_TRANSACTIONS_PER_BLOCK then
    Except.error AddTxErr.limitReached
  else
    match Transaction.validate_integrity env st.chain t with
    | Except.error e => Except.error (AddTxErr.integrity e)
    | Except.ok _ =>
      match remove_from_balance env st t.sender
          ((t.amount + t.amount_to_storage) % U64_MOD) with
      | Except.error _ => Except.error AddTxErr.notEnoughMoney
      | Except.ok st₁ =>
        let st₂ := add_to_balance env st₁ t.recipient t.amount
        let st₃ :=
          if t.amount_to_storage ≠ 0 then
            add_to_balance env st₂ STORAGE_ADDRESS t.amount_to_storage
          else st₂
        Except.ok { st₃ with preparing :=
          { st₃.preparing with transactions :=
            (st₃.preparing.transactions ++ [t]) } }

/-- Blockchain::add_block: clears the preparing state and the mining
flag first, then (for non-genesis blocks) validates integrity, then
appends to the store. The mutated state is returned even when an error
is reported, as the Rust method mutates self before it can fail. -/
def add_block (env : Env) (st : St) (b : Block) (is_genesis : Bool) :
    St × Option BlockErr :=
  let st₁ : St :=
    { preparing := PreparingBlockState.empty, chain := st.chain,
      isMining := false }
  if is_genesis then ({ st₁ with chain := st₁.chain ++ [b] }, none)
  else
    match b.validate_integrity env st₁.chain with
    | Except.error e => (st₁, some e)
    | Except.ok _ => ({ st₁ with chain := st₁.chain ++ [b] }, none)

/-- Block::generate_proof_of_work, fuel-indexed. flag n is the value
of IS_MINING observed at the top of the iteration with nonce n; ok n
states that the body hash at nonce n meets the difficulty target. none
means the fuel ran out before the loop returned. -/
def generate_proof_of_work (flag ok : Nat → Bool) :
    Nat → Nat → Option (Except Unit Nat)
  | _, 0 => none
  | n, fuel + 1 =>
    if flag n = false then some (Except.error ())
    else if ok n then some (Except.ok n)
    else generate_proof_of_work flag ok (n + 1) fuel

/-- Blockchain::mine_genesis_block: build the genesis balance state,
create the block with no previous hash and no transactions, run the
proof-of-work loop (IS_MINING holds throughout the sequential run),
sign, and append via add_block with is_genesis = true. -/
def mine_genesis_block (env : Env) (miner : String) (st : St)
    (fuel : Nat) : Option (Except Unit (Block × St)) :=
  let state :=
    bsInsert (bsInsert [] miner GENESIS_BLOCK_REWARD)
      STORAGE_ADDRESS STORAGE_START_BALANCE
  let base : Block :=
    { miner := miner, previous_hash := none, transactions := [],
      balance_state := state, nonce := 0, created_at := env.now,
      miner_signature := none }
  match generate_proof_of_work (fun _ => true)
      (fun n => Block.pow_valid env { base with nonce := n }) 0 fuel with
  | none => none
  | some (Except.error e) => some (Except.error e)
  | some (Except.ok n) =>
    let mined : Block := { base with nonce := n }
    let signed : Block :=
      { mined with miner_signature :=
        (some (env.sign (mined.compute_hash env))) }
    some (Except.ok (signed, (add_block env st signed true).1))

/-- Live-store state seen by Blockchain::from_str: the live database
and the process-wide DB_IO_LOCKED flag. -/
structure FsState where
  live : List Block
  dbIoLocked : Bool
deriving Repr, DecidableEq

/-- Replay loop of Blockchain::from_str: each block goes through
add_block on the temporary store, with is_genesis true exactly on
index 0. -/
def replayBlocks (env : Env) : St → List Block → Nat →
    Except BlockErr St
  | st, [], _ => Except.ok st
  | st, b :: rest, i =>
    match add_block env st b (i == 0) with
    | (st₁, none) => replayBlocks env st₁ rest (i + 1)
    | (_, some e) => Except.error e

/-- State of a freshly created blockchain over an empty (temporary)
store. -/
def freshSt : St :=
  { preparing := PreparingBlockState.empty, chain := [],
    isMining := false }

/-- Blockchain::from_str: take DB_IO_LOCKED, replay the blocks into a
fresh temporary store, and on full success replace the live store with
the temporary one and release the flag. On a rejected block the
temporary store is discarded, the live store is untouched, and — as in
the source — the flag is not released on the error path. -/
def from_str (env : Env) (blocks : List Block) (fs : FsState) :
    FsState × Option BlockErr :=
  let fs₁ : FsState := { fs with dbIoLocked := true }
  match replayBlocks env freshSt blocks 0 with
  | Except.error e => (fs₁, some e)
  | Except.ok st₂ => ({ live := st₂.chain, dbIoLocked := false }, none)

/-!
Spec-side definitions: written from the words of the specification and
the claims, to be compared with the source-translated functions above.
-/

/-- Spec wording of the final transaction check: previous_block_hash
must equal the last block body hash of the chain. -/
def txPrevCheckSpec (env : Env) (chain : List Block) (t : Transaction) :
    Except TxErr Unit :=
  match get_last_block_hash env chain with
  | Except.error _ => Except.error TxErr.getLastHashFailed
  | Except.ok h =>
    if t.previous_block_hash ≠ h then Except.error TxErr.hashesNotEquals
    else Except.ok ()

/-- Spec wording of Transaction::validate_integrity (claim C2): fail
RecipientIsStorage iff the recipient is "STORAGE"; then, for
non-storage senders only, SignatureEmpty when no signature is present
and a verification error when it does not verify, storage senders
skipping the check; then the previous-hash comparison; else Ok. -/
def txIntegritySpec (env : Env) (chain : List Block) (t : Transaction) :
    Except TxErr Unit :=
  if t.recipient = STORAGE_ADDRESS then
    Except.error TxErr.recipientIsStorage
  else if t.sender = STORAGE_ADDRESS then txPrevCheckSpec env chain t
  else
    match t.sender_signature with
    | none => Except.error TxErr.signatureEmpty
    | some s =>
      if env.verify s (t.compute_hash env) t.sender then
        txPrevCheckSpec env chain t
      else Except.error TxErr.verifyFailed

/-- Modelled from the claim (C4): the number of user (non-storage
sender) transactions in the preparing-block state. -/
def userTransactionCount (st : St) : Nat :=
  (st.preparing.transactions.filter
    (fun t => t.sender ≠ STORAGE_ADDRESS)).length

/-!
Concrete fixtures used by witnesses and counterexamples.
-/

/-- Environment with constant body hashes "H" / "T". -/
def envH : Env :=
  { hashBlock := fun _ => "H", hashTx := fun _ => "T",
    verify := fun _ _ _ => true, sign := fun _ => "S", now := 0 }

/-- Environment whose block body hash is the miner field, giving
pairwise distinct hashes to blocks with distinct miners. -/
def envM : Env :=
  { hashBlock := fun b => b.miner, hashTx := fun _ => "T",
    verify := fun _ _ _ => true, sign := fun _ => "S", now := 0 }

/-- Environment with the constant block body hash "0000", which meets
the proof-of-work difficulty. -/
def envZ : Env :=
  { hashBlock := fun _ => "0000", hashTx := fun _ => "T",
    verify := fun _ _ _ => true, sign := fun _ => "S", now := 0 }

/-- A stored block giving address "A" balance 10. -/
def g0 : Block :=
  { miner := "M", previous_hash := none, transactions := [],
    balance_state := [("A", 10)], nonce := 0, created_at := 0,
    miner_signature := none }

/-!
Claim C1 — Block::validate_previous_hash.
-/

/-- C1: for a block that carries a previous_hash (the claim itself
notes previous_hash is absent only for the genesis block, which is
never validated), step 1 of Block::validate_integrity passes exactly
when that hash equals the last block body hash of the chain, and fails with
the previous-hash mismatch error exactly when it differs. -/
theorem validate_previous_hash_spec (env : Env) (chain : List Block)
    (b : Block) (h lh : String)
    (hlast : get_last_block_hash env chain = Except.ok lh)
    (hprev : b.previous_hash = some h) :
    (b.validate_previous_hash env chain = Except.ok () ↔ h = lh) ∧
    (b.validate_previous_hash env chain =
        Except.error BlockErr.prevHashesNotEquals ↔ h ≠ lh) := by
  unfold Block.validate_previous_hash
  rw [hlast, hprev]
  by_cases hx : h = lh <;> simp [hx]

/-- Witness for C1 on a concrete one-block chain: a block carrying the
body hash of the last block passes the step. -/
theorem validate_previous_hash_spec_witness :
    Block.validate_previous_hash envH [g0]
      { g0 with previous_hash := some "H" } = Except.ok () :=
  ((validate_previous_hash_spec envH [g0]
    { g0 with previous_hash := some "H" } "H" "H" (by decide) rfl).1).mpr
    rfl

/-!
Claim C2 — Transaction::validate_integrity.
-/

/-- C2: Transaction::validate_integrity agrees with the spec-worded
three-step validator: recipient check, signature check skipped for
storage senders, previous-block-hash check, in that order. -/
theorem transaction_validate_integrity_spec (env : Env)
    (chain : List Block) (t : Transaction) :
    Transaction.validate_integrity env chain t =
      txIntegritySpec env chain t := by
  unfold Transaction.validate_integrity txIntegritySpec
    Transaction.validate_recipient Transaction.validate_sender_signature
    txPrevCheckSpec Transaction.validate_previous_block_hash
  by_cases hr : t.recipient = STORAGE_ADDRESS
  · simp [hr]
  · by_cases hs : t.sender = STORAGE_ADDRESS
    · simp [hr, hs]
    · cases hsig : t.sender_signature with
      | none => simp [hr, hs, hsig]
      | some s =>
        by_cases hv : env.verify s (t.compute_hash env) t.sender <;>
          simp [hr, hs, hsig, hv]

/-!
Claim C10 — Blockchain::add_block clears the preparing state and the
mining flag on every path.
-/

/-- C10: every call to add_block — succeeding or failing — returns a
state whose preparing-block accumulator is empty and whose mining flag
is off. -/
theorem add_block_clears_state (env : Env) (st : St) (b : Block)
    (is_genesis : Bool) :
    (add_block env st b is_genesis).1.preparing =
        PreparingBlockState.empty ∧
      (add_block env st b is_genesis).1.isMining = false := by
  unfold add_block
  cases is_genesis
  · cases h : b.validate_integrity env st.chain <;> simp [h]
  · simp

/-!
Claim C3 — Block::validate_balance_state.
-/

/-- Spec-level spending of an address over a transaction list: the
sum of amount + amount_to_storage over the transactions it sends. -/
def spentOf (address : String) : List Transaction → Nat
  | [] => 0
  | t :: rest =>
    (if address = t.sender then t.amount + t.amount_to_storage else 0) +
      spentOf address rest

/-- Spec-level receipts of an address with the exclusive
classification of the source: per transaction, a sender only spends;
otherwise a recipient receives amount; otherwise the storage address
receives amount_to_storage. -/
def receivedOfExcl (address : String) : List Transaction → Nat
  | [] => 0
  | t :: rest =>
    (if address ≠ t.sender ∧ address = t.recipient then t.amount
     else if address ≠ t.sender ∧ address ≠ t.recipient ∧
         address = STORAGE_ADDRESS then t.amount_to_storage
     else 0) +
      receivedOfExcl address rest

/-- Modelled from the claim (C3): receipts as the claim words them —
the amounts of the transactions whose recipient is the address, plus,
for "STORAGE", the amount_to_storage of every transaction. -/
def receivedOfClaim (address : String) (txs : List Transaction) : Nat :=
  ((txs.filter (fun t => address = t.recipient)).map
    (fun t => t.amount)).sum +
    (if address = STORAGE_ADDRESS then
      (txs.map (fun t => t.amount_to_storage)).sum
    else 0)

/-- Balance-state validator worded from the amended claim: stored
entry versus pre-block balance + exclusive receipts − spending, under
checked u64 arithmetic (the accumulated sums wrap modulo 2^64 as the
unchecked additions of the source do). -/
def balanceStateSpecExcl (env : Env) (chain : List Block) (b : Block)
    (address : String) : Except BalErr Unit :=
  match bsGet b.balance_state address with
  | none => Except.error BalErr.noBalanceInState
  | some state_balance =>
    match checkedAdd (get_balance_from_database env chain address (some b))
        (receivedOfExcl address b.transactions % U64_MOD) with
    | none => Except.error BalErr.addOverflow
    | some b₁ =>
      match checkedSub b₁ (spentOf address b.transactions % U64_MOD) with
      | none => Except.error BalErr.subOverflow
      | some b₂ =>
        if b₂ = state_balance then Except.ok ()
        else Except.error BalErr.balancesNotEquals

/-- Balance-state validator worded exactly as claim C3 states it, with
the additive receipts formula of the claim. -/
def balanceStateSpecClaim (env : Env) (chain : List Block) (b : Block)
    (address : String) : Except BalErr Unit :=
  match bsGet b.balance_state address with
  | none => Except.error BalErr.noBalanceInState
  | some state_balance =>
    match checkedAdd (get_balance_from_database env chain address (some b))
        (receivedOfClaim address b.transactions % U64_MOD) with
    | none => Except.error BalErr.addOverflow
    | some b₁ =>
      match checkedSub b₁ (spentOf address b.transactions % U64_MOD) with
      | none => Except.error BalErr.subOverflow
      | some b₂ =>
        if b₂ = state_balance then Except.ok ()
        else Except.error BalErr.balancesNotEquals

/-- The accumulation loop computes the spec-level sums, reduced modulo
2^64. -/
theorem spentReceivedLoop_eq (address : String) (txs : List Transaction)
    (s r : Nat) :
    spentReceivedLoop address txs (s % U64_MOD, r % U64_MOD) =
      ((s + spentOf address txs) % U64_MOD,
        (r + receivedOfExcl address txs) % U64_MOD) := by
  induction txs generalizing s r with
  | nil => simp [spentReceivedLoop, spentOf, receivedOfExcl]
  | cons t rest ih =>
    simp only [spentReceivedLoop, spentOf, receivedOfExcl]
    by_cases h1 : address = t.sender
    · rw [if_pos h1, if_pos h1, if_neg (fun hc => hc.1 h1),
        if_neg (fun hc => hc.1 h1)]
      rw [Nat.mod_add_mod, Nat.add_mod_mod,
        ih (s + (t.amount + t.amount_to_storage)) r]
      simp [Nat.add_assoc]
    · by_cases h2 : address = t.recipient
      · rw [if_neg h1, if_pos h2, if_neg h1, if_pos (And.intro h1 h2)]
        rw [Nat.mod_add_mod, ih s (r + t.amount)]
        simp [Nat.add_assoc]
      · by_cases h3 : address = STORAGE_ADDRESS
        · rw [if_neg h1, if_neg h2, if_pos h3, if_neg h1,
            if_neg (fun hc => h2 hc.2),
            if_pos (And.intro h1 (And.intro h2 h3))]
          rw [Nat.mod_add_mod, ih s (r + t.amount_to_storage)]
          simp [Nat.add_assoc]
        · rw [if_neg h1, if_neg h2, if_neg h3, if_neg h1,
            if_neg (fun hc => h2 hc.2), if_neg (fun hc => h3 hc.2.2)]
          rw [ih s r]
          simp

/-- C3 (amended): Block::validate_balance_state equals the spec-level
validator whose receipts use the exclusive per-transaction
classification of the source. -/
theorem validate_balance_state_excl_spec (env : Env)
    (chain : List Block) (b : Block) (address : String) :
    Block.validate_balance_state env chain b address =
      balanceStateSpecExcl env chain b address := by
  unfold Block.validate_balance_state balanceStateSpecExcl
  have h := spentReceivedLoop_eq address b.transactions 0 0
  simp only [Nat.zero_mod, Nat.zero_add] at h
  simp only [h]

/-- Transaction sending 5 from "A" to itself. -/
def tSelf : Transaction :=
  { sender := "A", recipient := "A", amount := 5, amount_to_storage := 0,
    previous_block_hash := "H", random_string := "r",
    sender_signature := none }

/-- Block holding the self-transfer, on top of g0 (its previous_hash
matches the body hash of g0 under envH). -/
def bSelf : Block :=
  { miner := "M", previous_hash := some "H", transactions := [tSelf],
    balance_state := [("A", 5)], nonce := 0, created_at := 0,
    miner_signature := none }

/-- C3 counterexample: on a self-transfer the source only debits the
sender (exclusive else-if), accepting entry 10 − 5 = 5, while the
additive formula of the claim demands 10 + 5 − 5 = 10 and would reject the
same block with BalancesNotEquals. -/
theorem balance_state_claim_counterexample :
    Block.validate_balance_state envH [g0] bSelf "A" = Except.ok () ∧
      balanceStateSpecClaim envH [g0] bSelf "A" =
        Except.error BalErr.balancesNotEquals := by
  constructor <;> rfl

/-!
Claim C4 — Blockchain::add_transaction.
-/

/-- C4 (amended): add_transaction fails with LimitReached exactly when
the sender is not "STORAGE" and the length of the whole
pending-transaction list — not the user-transaction count — already
equals USER_TRANSACTIONS_PER_BLOCK; past that check and integrity
validation, it fails with NotEnoughMoney exactly when the sender
balance (preparing entry first, database fallback) is smaller than
amount + amount_to_storage. -/
theorem add_transaction_limit_and_funds (env : Env) (st : St)
    (t : Transaction)
    (hsum : t.amount + t.amount_to_storage < U64_MOD) :
    (add_transaction env st t = Except.error AddTxErr.limitReached ↔
      (t.sender ≠ STORAGE_ADDRESS ∧
        st.preparing.transactions.length = USER_TRANSACTIONS_PER_BLOCK)) ∧
    ((t.sender = STORAGE_ADDRESS ∨
        st.preparing.transactions.length ≠ USER_TRANSACTIONS_PER_BLOCK) →
      Transaction.validate_integrity env st.chain t = Except.ok () →
      (add_transaction env st t = Except.error AddTxErr.notEnoughMoney ↔
        get_balance env st t.sender <
          t.amount + t.amount_to_storage)) := by
  unfold add_transaction
  by_cases hc : t.sender ≠ STORAGE_ADDRESS ∧
      st.preparing.transactions.length = USER_TRANSACTIONS_PER_BLOCK
  · constructor
    · simp [hc]
    · intro hn _
      rcases hn with hn | hn
      · exact absurd hn hc.1
      · exact absurd hc.2 hn
  · rw [if_neg hc]
    cases hv : Transaction.validate_integrity env st.chain t with
    | error e =>
      constructor
      · simp [hc]
      · intro _ hok
        exact absurd hok (by simp)
    | ok u =>
      cases u
      simp only [remove_from_balance, Nat.mod_eq_of_lt hsum]
      by_cases hb : get_balance env st t.sender <
          t.amount + t.amount_to_storage
      · rw [if_pos hb]
        constructor
        · simp [hc]
        · intro _ _
          simp [hb]
      · rw [if_neg hb]
        constructor
        · simp [hc]
        · intro _ _
          simp [hb]

/-- Reward-style transaction sent by the storage address. -/
def tSto1 : Transaction :=
  { sender := "STORAGE", recipient := "B", amount := 1,
    amount_to_storage := 0, previous_block_hash := "H",
    random_string := "s1", sender_signature := none }

/-- A second storage-sent transaction. -/
def tSto2 : Transaction :=
  { sender := "STORAGE", recipient := "B", amount := 1,
    amount_to_storage := 0, previous_block_hash := "H",
    random_string := "s2", sender_signature := none }

/-- Engine state whose preparing list holds two storage-sent
transactions: its user-transaction count is 0 while its length is 2. -/
def stTwoStorage : St :=
  { preparing := { transactions := [tSto1, tSto2], balance_state := [] },
    chain := [g0], isMining := false }

/-- User transaction from "A". -/
def tUser : Transaction :=
  { sender := "A", recipient := "B", amount := 1, amount_to_storage := 0,
    previous_block_hash := "H", random_string := "u1",
    sender_signature := some "sig" }

/-- C4 counterexample: with two storage-sent transactions pending, the
source rejects a user transaction with LimitReached although the
user-transaction count is 0, not USER_TRANSACTIONS_PER_BLOCK. -/
theorem add_transaction_limit_counterexample :
    add_transaction envH stTwoStorage tUser =
        Except.error AddTxErr.limitReached ∧
      userTransactionCount stTwoStorage ≠ USER_TRANSACTIONS_PER_BLOCK := by
  constructor
  · rfl
  · decide

/-- Engine state with two pending user transactions. -/
def stTwoUser : St :=
  { preparing :=
    { transactions :=
      [{ tUser with random_string := "u2" },
        { tUser with random_string := "u3" }],
      balance_state := [] },
    chain := [g0], isMining := false }

/-- Witness for C4 (amended) at a full preparing list: a further user
transaction is rejected with LimitReached. -/
theorem add_transaction_limit_and_funds_witness :
    add_transaction envH stTwoUser tUser =
      Except.error AddTxErr.limitReached :=
  (add_transaction_limit_and_funds envH stTwoUser tUser
    (by decide)).1.mpr (by decide)

/-!
Claim C5 — Blockchain::mine_genesis_block.
-/

/-- Contents of the genesis balance state built by mine_genesis_block:
exactly the miner at GENESIS_BLOCK_REWARD and the storage address at
STORAGE_START_BALANCE. -/
theorem genesis_state_get (miner : String) (hm : miner ≠ STORAGE_ADDRESS)
    (a : String) :
    bsGet (bsInsert (bsInsert [] miner GENESIS_BLOCK_REWARD)
        STORAGE_ADDRESS STORAGE_START_BALANCE) a =
      if a = miner then some GENESIS_BLOCK_REWARD
      else if a = STORAGE_ADDRESS then some STORAGE_START_BALANCE
      else none := by
  by_cases h1 : a = miner <;> by_cases h2 : a = STORAGE_ADDRESS <;>
    simp [bsGet, bsInsert, Ne.symm hm, h1, h2]

/-- C5: starting from an empty chain, a successful mine_genesis_block
appends one block with no transactions, no previous hash, and a
balance state mapping exactly the miner and "STORAGE" to 100 each;
afterwards the chain length is 1 and both balances read back as 100. -/
theorem mine_genesis_block_spec (env : Env) (miner : String) (st : St)
    (fuel : Nat) (b : Block) (st₂ : St)
    (hempty : st.chain = [])
    (hm : miner ≠ STORAGE_ADDRESS)
    (hrun : mine_genesis_block env miner st fuel =
      some (Except.ok (b, st₂))) :
    b.transactions = [] ∧ b.previous_hash = none ∧
      (∀ a, bsGet b.balance_state a =
        if a = miner then some GENESIS_BLOCK_REWARD
        else if a = STORAGE_ADDRESS then some STORAGE_START_BALANCE
        else none) ∧
      st₂.chain.length = 1 ∧
      get_balance env st₂ miner = GENESIS_BLOCK_REWARD ∧
      get_balance env st₂ STORAGE_ADDRESS = STORAGE_START_BALANCE := by
  simp only [mine_genesis_block] at hrun
  split at hrun
  · exact absurd hrun (by simp)
  · exact absurd hrun (by simp)
  · have hpair := Except.ok.inj (Option.some.inj hrun)
    rw [Prod.mk.injEq] at hpair
    obtain ⟨hb, hst⟩ := hpair
    subst hb
    subst hst
    refine ⟨rfl, rfl, ?_, ?_, ?_, ?_⟩
    · intro a
      exact genesis_state_get miner hm a
    · simp [add_block, hempty]
    · simp only [add_block, hempty, get_balance, PreparingBlockState.empty,
        bsGet, get_balance_from_database, get_blocks, List.nil_append,
        List.reverse_cons, List.reverse_nil, List.findSome?]
      simp [genesis_state_get miner hm miner]
    · simp only [add_block, hempty, get_balance, PreparingBlockState.empty,
        bsGet, get_balance_from_database, get_blocks, List.nil_append,
        List.reverse_cons, List.reverse_nil, List.findSome?]
      simp [genesis_state_get miner hm STORAGE_ADDRESS, Ne.symm hm]

/-- Empty engine state. -/
def stEmptyFix : St :=
  { preparing := PreparingBlockState.empty, chain := [], isMining := false }

/-- The genesis block produced by mine_genesis_block under envZ. -/
def gBlockZ : Block :=
  { miner := "M", previous_hash := none, transactions := [],
    balance_state := [("M", 100), ("STORAGE", 100)], nonce := 0,
    created_at := 0, miner_signature := some "S" }

/-- Engine state after the genesis block under envZ. -/
def stAfterZ : St :=
  { preparing := PreparingBlockState.empty, chain := [gBlockZ],
    isMining := false }

/-- Witness for C5: a concrete genesis run under envZ yields both
balances at 100. -/
theorem mine_genesis_block_spec_witness :
    get_balance envZ stAfterZ "M" = GENESIS_BLOCK_REWARD ∧
      get_balance envZ stAfterZ "STORAGE" = STORAGE_START_BALANCE :=
  ⟨(mine_genesis_block_spec envZ "M" stEmptyFix 1 gBlockZ stAfterZ rfl
      (by decide) rfl).2.2.2.2.1,
    (mine_genesis_block_spec envZ "M" stEmptyFix 1 gBlockZ stAfterZ rfl
      (by decide) rfl).2.2.2.2.2⟩

/-!
Claim C6 — Blockchain::get_balance_from_database.
-/

/-- Scanning with a before bound over a chain that contains a unique
block whose body hash matches the previous_hash of the bound retrieves
exactly the blocks up to and including that block — the blocks
strictly before where the bound would sit. -/
theorem get_blocks_before_split (env : Env) (bb : Block)
    (pre : List Block) (p : Block) (rest : List Block)
    (hne : ∀ q ∈ pre, bb.previous_hash ≠ some (q.compute_hash env))
    (hp : bb.previous_hash = some (p.compute_hash env)) :
    get_blocks_before env bb (pre ++ p :: rest) = pre ++ [p] := by
  induction pre with
  | nil => simp [get_blocks_before, hp]
  | cons q qre ih =>
    have hq : bb.previous_hash ≠ some (q.compute_hash env) :=
      hne q (by simp)
    simp only [List.cons_append, get_blocks_before, List.append_eq]
    rw [if_neg hq, ih (fun x hx => hne x (by simp [hx]))]

/-- C6: with the chain split around the block p that the previous_hash of b
designates (hashes before p being distinct from the hash of p),
get_balance_from_database with before = b returns the most recent
balance_state entry among the blocks strictly before b — p first, then
earlier blocks — and 0 when none carries one; with before = none it
searches every block the same way. -/
theorem get_balance_from_database_spec (env : Env) (pre : List Block)
    (p : Block) (rest : List Block) (b : Block) (address : String)
    (hne : ∀ q ∈ pre, b.previous_hash ≠ some (q.compute_hash env))
    (hp : b.previous_hash = some (p.compute_hash env)) :
    get_balance_from_database env (pre ++ p :: rest) address (some b) =
      ((p :: pre.reverse).findSome?
        (fun q => bsGet q.balance_state address)).getD 0 ∧
    ∀ chain : List Block,
      get_balance_from_database env chain address none =
        (chain.reverse.findSome?
          (fun q => bsGet q.balance_state address)).getD 0 := by
  constructor
  · unfold get_balance_from_database
    have hgb : get_blocks env (pre ++ p :: rest) (some b) = pre ++ [p] :=
      get_blocks_before_split env b pre p rest hne hp
    rw [hgb]
    simp [List.reverse_append]
  · intro chain
    rfl

/-- Stored block with miner (hence body hash under envM) "hA". -/
def gA : Block :=
  { miner := "hA", previous_hash := none, transactions := [],
    balance_state := [("X", 1)], nonce := 0, created_at := 0,
    miner_signature := none }

/-- Stored block with body hash "hB" under envM. -/
def gB : Block :=
  { miner := "hB", previous_hash := some "hA", transactions := [],
    balance_state := [("X", 2)], nonce := 0, created_at := 0,
    miner_signature := none }

/-- Stored block with body hash "hC" under envM. -/
def gC : Block :=
  { miner := "hC", previous_hash := some "hB", transactions := [],
    balance_state := [("X", 3)], nonce := 0, created_at := 0,
    miner_signature := none }

/-- Query block sitting right after gB. -/
def bQuery : Block :=
  { miner := "M", previous_hash := some "hB", transactions := [],
    balance_state := [], nonce := 0, created_at := 0,
    miner_signature := none }

/-- Witness for C6: on the chain [gA, gB, gC], the balance of "X"
strictly before a block that extends gB is the gB entry 2, not the gC one. -/
theorem get_balance_from_database_spec_witness :
    get_balance_from_database envM [gA, gB, gC] "X" (some bQuery) = 2 :=
  ((get_balance_from_database_spec envM [gA] gB [gC] bQuery "X"
    (by decide) rfl).1).trans (by decide)

/-!
Claim C7 — Block::generate_proof_of_work.
-/

/-- Characterization of a successful run of the mining loop from an
arbitrary starting nonce: the returned nonce is the least
target-meeting one at or after the start, the flag was observed true
throughout, and fuel (nonce − start) + 1 — one hash evaluation per
iteration — already suffices. -/
theorem gen_pow_ok_charact (flag ok : Nat → Bool) :
    ∀ fuel s n : Nat,
      generate_proof_of_work flag ok s fuel = some (Except.ok n) →
      s ≤ n ∧ ok n = true ∧
        (∀ m, s ≤ m → m < n → flag m = true ∧ ok m = false) ∧
        flag n = true ∧
        generate_proof_of_work flag ok s (n + 1 - s) =
          some (Except.ok n) := by
  intro fuel
  induction fuel with
  | zero =>
    intro s n h
    exact absurd h (by simp [generate_proof_of_work])
  | succ fuel ih =>
    intro s n h
    unfold generate_proof_of_work at h
    by_cases hf : flag s = false
    · rw [if_pos hf] at h
      exact absurd h (by simp)
    · rw [if_neg hf] at h
      have hft : flag s = true := by
        cases hfv : flag s
        · exact absurd hfv hf
        · rfl
      by_cases ho : ok s = true
      · rw [if_pos ho] at h
        have hn : s = n := Except.ok.inj (Option.some.inj h)
        subst hn
        refine ⟨le_refl s, ho, ?_, hft, ?_⟩
        · intro m h1 h2
          omega
        · have ha : s + 1 - s = 1 := by omega
          rw [ha]
          unfold generate_proof_of_work
          rw [if_neg hf, if_pos ho]
      · have hof : ok s = false := by
          cases hov : ok s
          · rfl
          · exact absurd hov ho
        rw [if_neg ho] at h
        have H := ih (s + 1) n h
        refine ⟨by omega, H.2.1, ?_, H.2.2.2.1, ?_⟩
        · intro m h1 h2
          by_cases hm : m = s
          · subst hm
            exact ⟨hft, hof⟩
          · exact H.2.2.1 m (by omega) h2
        · have ha : n + 1 - s = (n + 1 - (s + 1)) + 1 := by omega
          rw [ha]
          unfold generate_proof_of_work
          rw [if_neg hf, if_neg ho]
          exact H.2.2.2.2

/-- If every iteration before k ran with the flag up and no hash hit,
and the flag is observed false at iteration k, the loop fails with the
stopped error. -/
theorem gen_pow_stopped (flag ok : Nat → Bool) :
    ∀ fuel s k : Nat,
      (∀ m, s ≤ m → m < k → flag m = true ∧ ok m = false) →
      flag k = false → s ≤ k → k - s < fuel →
      generate_proof_of_work flag ok s fuel =
        some (Except.error ()) := by
  intro fuel
  induction fuel with
  | zero =>
    intro s k _ _ _ h
    omega
  | succ fuel ih =>
    intro s k hmid hk hsk hlt
    unfold generate_proof_of_work
    by_cases hs : s = k
    · subst hs
      rw [if_pos hk]
    · have h1 : s < k := by omega
      have hsf := hmid s (le_refl s) h1
      rw [if_neg (by simp [hsf.1]), if_neg (by simp [hsf.2])]
      exact ih (s + 1) k (fun m hm1 hm2 => hmid m (by omega) hm2) hk
        (by omega) (by omega)

/-- C7: the mining loop counts the nonce up from 0; on success the
returned nonce meets the hash target, all earlier nonces were tried
with the flag up and missed, and nonce + 1 loop iterations — hence at
most nonce + 1 hash evaluations — suffice; whenever the flag is
observed false at the top of a reached iteration, the loop fails with
the stopped error. -/
theorem generate_proof_of_work_spec (flag ok : Nat → Bool)
    (fuel n : Nat) :
    (generate_proof_of_work flag ok 0 fuel = some (Except.ok n) →
      ok n = true ∧ (∀ m, m < n → flag m = true ∧ ok m = false) ∧
        flag n = true ∧
        generate_proof_of_work flag ok 0 (n + 1) =
          some (Except.ok n)) ∧
    (∀ k, (∀ m, m < k → flag m = true ∧ ok m = false) →
      flag k = false → k < fuel →
      generate_proof_of_work flag ok 0 fuel =
        some (Except.error ())) := by
  constructor
  · intro h
    have H := gen_pow_ok_charact flag ok fuel 0 n h
    refine ⟨H.2.1, fun m hm => H.2.2.1 m (Nat.zero_le m) hm,
      H.2.2.2.1, ?_⟩
    have ha : n + 1 - 0 = n + 1 := by omega
    exact ha ▸ H.2.2.2.2
  · intro k hmid hk hkf
    exact gen_pow_stopped flag ok fuel 0 k (fun m _ hm => hmid m hm) hk
      (Nat.zero_le k) (by omega)

/-- Witness for C7: a loop whose target first holds at nonce 1
succeeds within 2 iterations, and a loop whose flag drops at
iteration 2 stops. -/
theorem generate_proof_of_work_spec_witness :
    (generate_proof_of_work (fun _ => true) (fun m => decide (1 ≤ m)) 0
        2 = some (Except.ok 1)) ∧
      (generate_proof_of_work (fun m => decide (m < 2)) (fun _ => false)
        0 5 = some (Except.error ())) :=
  ⟨((generate_proof_of_work_spec (fun _ => true)
      (fun m => decide (1 ≤ m)) 9 1).1 (by decide)).2.2.2,
    (generate_proof_of_work_spec (fun m => decide (m < 2))
      (fun _ => false) 5 0).2 2 (by decide) (by decide) (by decide)⟩

/-!
Claims C8 and C9 — Blockchain::from_str.
-/

/-- A successful add_block appends exactly the given block to the
store. -/
theorem add_block_ok_chain (env : Env) (st : St) (b : Block)
    (is_genesis : Bool) (hok : (add_block env st b is_genesis).2 = none) :
    (add_block env st b is_genesis).1.chain = st.chain ++ [b] := by
  simp only [add_block] at hok ⊢
  cases is_genesis
  · cases h : b.validate_integrity env st.chain with
    | error e =>
      rw [h] at hok
      simp at hok
    | ok u => simp [h]
  · simp

/-- A replay that accepts every block appends them, in order, to the
store it started from. -/
theorem replay_chain (env : Env) :
    ∀ (blocks : List Block) (st : St) (i : Nat) (st₂ : St),
      replayBlocks env st blocks i = Except.ok st₂ →
      st₂.chain = st.chain ++ blocks := by
  intro blocks
  induction blocks with
  | nil =>
    intro st i st₂ h
    have hs := Except.ok.inj h
    subst hs
    simp
  | cons b rest ih =>
    intro st i st₂ h
    unfold replayBlocks at h
    cases hab : add_block env st b (i == 0) with
    | mk st₁ err =>
      rw [hab] at h
      cases err with
      | none =>
        have hchain : st₁.chain = st.chain ++ [b] := by
          have := add_block_ok_chain env st b (i == 0) (by rw [hab])
          rw [hab] at this
          exact this
        have hc := ih st₁ (i + 1) st₂ h
        rw [hc, hchain]
        simp
      | some e =>
        exact absurd h (by simp)

/-- C8: from_str succeeds exactly when the replay through add_block
(genesis semantics only at index 0) accepts every block, in which case
the live store becomes exactly the replayed block list; on any
rejected block the live store is left unchanged. -/
theorem from_str_spec (env : Env) (blocks : List Block) (fs : FsState) :
    ((from_str env blocks fs).2 = none ↔
      ∃ st₂, replayBlocks env freshSt blocks 0 = Except.ok st₂) ∧
    ((from_str env blocks fs).2 = none →
      (from_str env blocks fs).1.live = blocks) ∧
    (∀ e, (from_str env blocks fs).2 = some e →
      (from_str env blocks fs).1.live = fs.live) := by
  unfold from_str
  cases h : replayBlocks env freshSt blocks 0 with
  | error e =>
    refine ⟨by simp, by simp, ?_⟩
    intro e₁ _
    rfl
  | ok st₂ =>
    refine ⟨iff_of_true rfl ⟨st₂, rfl⟩, ?_, ?_⟩
    · intro _
      have hc := replay_chain env blocks freshSt 0 st₂ h
      simp only [freshSt, List.nil_append] at hc
      exact hc
    · intro e he
      exact absurd he (by simp)

/-- Witness for C8: replaying the single genesis block installs it as
the whole live store. -/
theorem from_str_spec_witness :
    (from_str envH [g0] ⟨[], false⟩).1.live = [g0] :=
  (from_str_spec envH [g0] ⟨[], false⟩).2.1 rfl

/-- Non-genesis block whose previous_hash does not match the last
block hash "H". -/
def bBad : Block :=
  { miner := "M", previous_hash := some "X", transactions := [],
    balance_state := [], nonce := 0, created_at := 0,
    miner_signature := none }

/-- C9 (code bug evidence): a rebuild whose second block is rejected
returns the previous-hash error with DB_IO_LOCKED still true — the
source stores false into the flag only after a successful store
replacement, on no error path. -/
theorem from_str_leaves_db_io_locked :
    (from_str envH [g0, bBad] ⟨[], false⟩).1.dbIoLocked = true ∧
      (from_str envH [g0, bBad] ⟨[], false⟩).2 =
        some BlockErr.prevHashesNotEquals := by
  constructor
  · rfl
  · rfl

end Coin
